import Mathlib

/-!
Verification of the Cell Analyzer measurement and persistence core
(`Har_app.py`, classes `CellAnalyzerTab` and `CellAnalyzerApp`).

Pixel coordinates are integers, physical quantities (micrometers) are exact
rationals standing for the Python floats, and the external image-processing
and codec collaborators (OpenCV, base64, PNG) are modelled from the spec at
the granularity the code observes.
-/

namespace CellAnalyzer

/-- A pixel point: the integer coordinates `(int(x), int(y))` the code passes
to the point-in-polygon test. -/
abbrev Pt := ℤ × ℤ

/-- A contour: an ordered closed polygon of pixel points (a cv2 contour,
`contour_data` after `tolist()`). -/
abbrev Contour := List Pt

/-- Modelled from the spec: edge loop of the external point-in-polygon
primitive `pointInPolygon` (`cv2.pointPolygonTest` with `measureDist=False`),
ported from the library's integer crossing-number algorithm.  Walks the edges
`v0 → v`; `none` is the early on-boundary return, `some n` the crossing
counter. -/
def ppAux (p : Pt) : Pt → List Pt → Option ℕ
  | _, [] => some 0
  | v0, v :: rest =>
    if (v0.2 ≤ p.2 ∧ v.2 ≤ p.2) ∨ (p.2 < v0.2 ∧ p.2 < v.2) ∨ (v0.1 < p.1 ∧ v.1 < p.1) then
      if p.2 = v.2 ∧ (p.1 = v.1 ∨ (p.2 = v0.2 ∧
          ((v0.1 ≤ p.1 ∧ p.1 ≤ v.1) ∨ (v.1 ≤ p.1 ∧ p.1 ≤ v0.1)))) then
        none
      else ppAux p v rest
    else
      if (p.2 - v0.2) * (v.1 - v0.1) - (p.1 - v0.1) * (v.2 - v0.2) = 0 then
        none
      else
        match ppAux p v rest with
        | none => none
        | some n =>
          some (n + if 0 < (if v.2 < v0.2 then
                -((p.2 - v0.2) * (v.1 - v0.1) - (p.1 - v0.1) * (v.2 - v0.2))
              else
                (p.2 - v0.2) * (v.1 - v0.1) - (p.1 - v0.1) * (v.2 - v0.2)) then 1 else 0)

/-- Modelled from the spec: the external point-in-polygon primitive
(`cv2.pointPolygonTest` with `measureDist=False`).  Positive strictly inside,
`0` on the boundary, negative outside; the code treats a result `≥ 0` as
"the click is inside this region, boundary inclusive". -/
def pointPolygonTest (c : Contour) (p : Pt) : ℤ :=
  match c with
  | [] => -1
  | v :: _ =>
    match ppAux p (c.getLastD v) c with
    | none => 0
    | some n => if n % 2 = 1 then 1 else -1

/-- Summed cross products of consecutive vertices, closing back to `first`. -/
def shoelaceAux (first : Pt) : Pt → List Pt → ℤ
  | prev, [] => prev.1 * first.2 - first.1 * prev.2
  | prev, q :: rest => (prev.1 * q.2 - q.1 * prev.2) + shoelaceAux first q rest

/-- Shoelace sum of a closed polygon (twice its signed area). -/
def shoelace : Contour → ℤ
  | [] => 0
  | p :: rest => shoelaceAux p p rest

/-- Modelled from the spec: the external polygon-area primitive
(`cv2.contourArea`): half the absolute value of the shoelace sum, in pixels². -/
def contourArea (c : Contour) : ℚ := ((|shoelace c| : ℤ) : ℚ) / 2

/-- Modelled from the spec: the external bounding-box primitive
(`cv2.boundingRect`): width and height of the axis-aligned bounding box of
the polygon, inclusive of both extreme pixel columns/rows (`max - min + 1`). -/
def boundingRectWH (c : Contour) : ℤ × ℤ :=
  match c with
  | [] => (0, 0)
  | q :: rest =>
    ((rest.map Prod.fst).foldl max q.1 - (rest.map Prod.fst).foldl min q.1 + 1,
     (rest.map Prod.snd).foldl max q.2 - (rest.map Prod.snd).foldl min q.2 + 1)

/-- One measurement record as the code keeps it in `cell_measurements` and
serializes it (the `outline_item` view handle is UI state and dropped at
serialization, so it is not part of the record here). -/
structure Measurement where
  id : ℤ
  area_um2 : ℚ
  width_um : ℚ
  height_um : ℚ
  contour_data : Contour
deriving DecidableEq

/-- Modelled from the spec: a decoded raster image as the external library
hands it over — its pixel dimensions (`shape`), its raster bytes, and the
contours the deterministic external detection pass
(threshold + findContours + area filter of `analyze_image`) yields for it. -/
structure Image where
  width : ℕ
  height : ℕ
  data : List ℕ
  contours : List Contour
deriving DecidableEq

/-- Modelled from the spec: the `image_b64` field of a tab snapshot, at the
granularity `load_state` observes through the external codecs:
  * `empty` — the empty string (falsy, rejected like a missing field);
  * `invalidB64` — text `base64.b64decode` raises on (`binascii.Error`,
    a `ValueError`, so it is caught by `load_state`'s handler);
  * `undecodable` — valid base64 whose bytes `cv2.imdecode` cannot decode
    (it returns `None` rather than raising);
  * `decodable i` — valid base64 of a lossless (PNG) encoding of raster `i`;
    the lossless round-trip means decoding gives back exactly `i`. -/
inductive ImgField where
  | empty
  | invalidB64
  | undecodable
  | decodable (img : Image)
deriving DecidableEq

/-- A tab snapshot as a JSON object: every field optional, as
`load_state` reads them with `.get`. -/
structure TabStateDoc where
  title : Option String
  image_b64 : Option ImgField
  image_width_um : Option ℚ
  image_height_um : Option ℚ
  cell_measurements : Option (List Measurement)
  next_cell_id : Option ℤ
deriving DecidableEq

/-- A project document as a JSON object (`{"version": ..., "tabs": [...]}`);
`_load_project_from_path` only ever looks for the `"tabs"` key. -/
structure ProjectDoc where
  version : Option String
  tabs : Option (List TabStateDoc)
deriving DecidableEq

/-- The measurement-relevant state of one `CellAnalyzerTab`.  Widget state
(scene items, table rows, highlight) is UI-layer and not modelled; the
width/height text boxes are modelled at their use site (`recalculate_dimensions`
receives the outcome of parsing them). -/
@[ext]
structure TabState where
  image_width_um : ℚ
  image_height_um : ℚ
  pixel_width_um : ℚ
  pixel_height_um : ℚ
  contours : List Contour
  cell_measurements : List Measurement
  next_cell_id : ℤ
  img : Option Image
  line_start_point : Option (ℚ × ℚ)
  current_line_items : List ((ℚ × ℚ) × (ℚ × ℚ))
deriving DecidableEq

/-- A freshly constructed tab (`CellAnalyzerTab.__init__` with the default
arguments, as `_load_project_from_path` and `add_new_tab` build it). -/
def freshTab : TabState :=
  { image_width_um := 100
    image_height_um := 100
    pixel_width_um := 0
    pixel_height_um := 0
    contours := []
    cell_measurements := []
    next_cell_id := 1
    img := none
    line_start_point := none
    current_line_items := [] }

/-- `CellAnalyzerTab.analyze_image`: with no image (`cv2` decode failure) it
only reports and returns; with an image it stores it, runs detection,
derives the pixel scales from the current physical dimensions and the image's
pixel dimensions, and clears all outlines (measurements emptied, counter
reset to 1, line items dropped). -/
def analyze_image (s : TabState) (img : Option Image) : TabState :=
  match img with
  | none => s
  | some i =>
    { s with
      img := some i
      contours := i.contours
      pixel_width_um := s.image_width_um / (i.width : ℚ)
      pixel_height_um := s.image_height_um / (i.height : ℚ)
      cell_measurements := []
      next_cell_id := 1
      current_line_items := [] }

/-- Body of `CellAnalyzerTab.load_state` once the image field passed the
checks: physical dimensions are read with defaults, the (possibly failed)
decoded image is analyzed, and then measurements and counter are restored
verbatim from the snapshot (`add_measurement_to_table` with
`update_id=False`, appending in order). -/
def load_state_body (s : TabState) (st : TabStateDoc) (img : Option Image) : TabState :=
  let s1 := { s with
    image_width_um := st.image_width_um.getD 100
    image_height_um := st.image_height_um.getD 100 }
  let s2 := analyze_image s1 img
  { s2 with
    cell_measurements := st.cell_measurements.getD []
    next_cell_id := st.next_cell_id.getD 1 }

/-- `CellAnalyzerTab.load_state`: a missing or empty `image_b64` raises a
`ValueError` caught by its own handler, as does invalid base64
(`binascii.Error` is a `ValueError`); both leave the tab untouched (only a
message is shown).  Valid base64 that `cv2.imdecode` cannot decode yields
`img = None` and the load continues. -/
def load_state (s : TabState) (st : TabStateDoc) : TabState :=
  match st.image_b64 with
  | none => s
  | some ImgField.empty => s
  | some ImgField.invalidB64 => s
  | some ImgField.undecodable => load_state_body s st none
  | some (ImgField.decodable i) => load_state_body s st (some i)

/-- `CellAnalyzerTab.save_state`: `None` when no image is loaded; otherwise a
snapshot with the PNG + base64 encoding of the canonical image (the
RGB→BGR conversion undoes the BGR→RGB one done at load, so the encoded
raster is the image itself; PNG is lossless per the spec), the physical
dimensions, the measurements with their UI handle dropped, and the counter.
The title computed here from the parent widget is a fallback
(`save_project` overwrites it). -/
def save_state (s : TabState) : Option TabStateDoc :=
  match s.img with
  | none => none
  | some i =>
    some
      { title := some "Untitled Tab"
        image_b64 := some (ImgField.decodable i)
        image_width_um := some s.image_width_um
        image_height_um := some s.image_height_um
        cell_measurements := some s.cell_measurements
        next_cell_id := some s.next_cell_id }

/-- `CellAnalyzerTab.handle_click` (left click in analysis mode): scan the
detected contours in order, and at the first one whose point-polygon test is
`≥ 0` (inside or on the boundary) append one record — pixel area times both
scales, bounding-box width/height times the respective scale, id drawn from
`next_cell_id` — then increment the counter and stop.  No containing contour:
no change. -/
def handle_click (s : TabState) (p : Pt) : TabState :=
  match s.contours.find? (fun c => decide (0 ≤ pointPolygonTest c p)) with
  | none => s
  | some c =>
    { s with
      cell_measurements := s.cell_measurements ++
        [{ id := s.next_cell_id
           area_um2 := contourArea c * s.pixel_width_um * s.pixel_height_um
           width_um := (((boundingRectWH c).1 : ℤ) : ℚ) * s.pixel_width_um
           height_um := (((boundingRectWH c).2 : ℤ) : ℚ) * s.pixel_height_um
           contour_data := c }]
      next_cell_id := s.next_cell_id + 1 }

/-- `CellAnalyzerTab.delete_selected_measurement`: `sel` is the id in the
selected table row (`none`: nothing selected, a no-op).  If a record with
that id exists it is removed from the list; `next_cell_id` is never
touched and no other record changes. -/
def delete_selected_measurement (s : TabState) (sel : Option ℤ) : TabState :=
  match sel with
  | none => s
  | some cid =>
    if s.cell_measurements.any (fun m => m.id = cid) then
      { s with cell_measurements := s.cell_measurements.filter (fun m => m.id ≠ cid) }
    else s

/-- Recomputation of one record's derived fields from its frozen contour and
the given pixel scales (the loop body of `recalculate_dimensions`; the
contour round-trips unchanged through `np.array(...).tolist()`). -/
def recomputeMeasurement (pwu phu : ℚ) (m : Measurement) : Measurement :=
  { id := m.id
    area_um2 := contourArea m.contour_data * pwu * phu
    width_um := (((boundingRectWH m.contour_data).1 : ℤ) : ℚ) * pwu
    height_um := (((boundingRectWH m.contour_data).2 : ℤ) : ℚ) * phu
    contour_data := m.contour_data }

/-- `CellAnalyzerTab.recalculate_dimensions`: `wText`/`hText` are the
outcomes of Python `float(...)` on the two text boxes (`none` models the
`ValueError` of a non-numeric field).  The code assigns
`image_width_um` before parsing the height field, so a failing height parse
leaves the width already updated; with both parsed and an image loaded the
pixel scales are rederived and every record recomputed from its contour
in order. -/
def recalculate_dimensions (s : TabState) (wText hText : Option ℚ) : TabState :=
  match wText with
  | none => s
  | some w =>
    match hText with
    | none => { s with image_width_um := w }
    | some h =>
      let s1 := { s with image_width_um := w, image_height_um := h }
      match s1.img with
      | none => s1
      | some i =>
        { s1 with
          pixel_width_um := w / (i.width : ℚ)
          pixel_height_um := h / (i.height : ℚ)
          cell_measurements :=
            s1.cell_measurements.map
              (recomputeMeasurement (w / (i.width : ℚ)) (h / (i.height : ℚ))) }

/-- `CellAnalyzerTab.handle_line_release`, state part: with a pending start
point the drawn line is kept as a scene item and the temporary state is
cleared (`clear_temp_items`); the measurement store (`cell_measurements`,
`next_cell_id`) is never touched. -/
def handle_line_release_state (s : TabState) (endPt : ℚ × ℚ) : TabState :=
  match s.line_start_point with
  | none => s
  | some p0 =>
    { s with
      current_line_items := s.current_line_items ++ [(p0, endPt)]
      line_start_point := none }

/-- `CellAnalyzerTab.handle_line_release`, displayed length: the Euclidean
pixel distance start→end times the single isotropic scale
`sqrt(pixel_width_um * pixel_height_um)`. -/
noncomputable def handle_line_release_length (s : TabState) (endPt : ℚ × ℚ) : Option ℝ :=
  match s.line_start_point with
  | none => none
  | some p0 =>
    some (Real.sqrt (((endPt.1 - p0.1 : ℚ) : ℝ) ^ 2 + ((endPt.2 - p0.2 : ℚ) : ℝ) ^ 2) *
      Real.sqrt ((s.pixel_width_um : ℝ) * (s.pixel_height_um : ℝ)))

/-- One application tab: its tab-bar title and its `CellAnalyzerTab` state. -/
structure AppTab where
  title : String
  state : TabState
deriving DecidableEq

/-- `CellAnalyzerApp.save_project`, document construction: each tab's
snapshot with the tab-bar title patched in; tabs whose `save_state` is
`None` (no image) are silently skipped. -/
def save_project (tabs : List AppTab) : ProjectDoc :=
  { version := some "1.0"
    tabs := some (tabs.filterMap (fun t =>
      (save_state t.state).map (fun st => { st with title := some t.title }))) }

/-- `CellAnalyzerApp._load_project_from_path`: `none` stands for a document
that never parsed (unreadable file or invalid JSON — `IOError` /
`json.JSONDecodeError`), raised before anything is mutated.  A parsed
document without the `"tabs"` key raises `ValueError`, also before any
mutation.  Once the key is present, ALL existing tabs are removed and each
snapshot is loaded into a fresh tab (per-tab errors are swallowed inside
`load_state`); the Bool is the function's return value (`True` = reported
success). -/
def load_project (tabs : List AppTab) (doc : Option ProjectDoc) : List AppTab × Bool :=
  match doc with
  | none => (tabs, false)
  | some d =>
    match d.tabs with
    | none => (tabs, false)
    | some ts =>
      (ts.map (fun st =>
        { title := st.title.getD "Loaded Tab", state := load_state freshTab st }), true)

/-- One store operation of a tab's lifetime, excluding snapshot restore:
a left click in analysis mode, a delete of the selected row, or a
recalibration with the parsed text fields. -/
inductive StoreOp where
  | click (p : Pt)
  | deleteSel (sel : Option ℤ)
  | recal (wText hText : Option ℚ)

/-- Apply one operation; the second component lists the ids the operation
assigned through the normal add path (at most one, by a click landing in a
contour). -/
def applyOp (s : TabState) : StoreOp → TabState × List ℤ
  | StoreOp.click p =>
    (handle_click s p,
     if (s.contours.find? (fun c => decide (0 ≤ pointPolygonTest c p))).isSome then
       [s.next_cell_id]
     else [])
  | StoreOp.deleteSel sel => (delete_selected_measurement s sel, [])
  | StoreOp.recal wText hText => (recalculate_dimensions s wText hText, [])

/-- Apply a sequence of operations, concatenating the assigned ids in
assignment order. -/
def applyOps (s : TabState) : List StoreOp → TabState × List ℤ
  | [] => (s, [])
  | op :: ops =>
    ((applyOps (applyOp s op).1 ops).1,
     (applyOp s op).2 ++ (applyOps (applyOp s op).1 ops).2)

/-! ### Calibration input errors (C5) -/

/-- C5 counterexample: with the width box parsed as `50` and a non-numeric
height box, `recalculate_dimensions` has already overwritten
`image_width_um` (100 → 50) when the height parse raises, so the
calibration is partially updated, not left entirely unchanged. -/
theorem recalibrate_partial_update_counterexample :
    (recalculate_dimensions
      { freshTab with
        image_width_um := 100, image_height_um := 80,
        img := some ⟨4, 4, [], []⟩ }
      (some 50) none).image_width_um = 50 ∧
    (recalculate_dimensions
      { freshTab with
        image_width_um := 100, image_height_um := 80,
        img := some ⟨4, 4, [], []⟩ }
      (some 50) none).image_height_um = 80 ∧
    (50 : ℚ) ≠ 100 :=
  ⟨rfl, rfl, by norm_num⟩

/-- C5 (amended): a non-numeric width box leaves the whole tab state — the
calibration and the measurement store — unchanged; a numeric width box
followed by a non-numeric height box updates `image_width_um` to the parsed
width but changes nothing else: height, both pixel scales, the measurement
list and the id counter keep their values. -/
theorem recalibrate_invalid_input (s : TabState) (hText : Option ℚ) (w : ℚ) :
    recalculate_dimensions s none hText = s ∧
    recalculate_dimensions s (some w) none = { s with image_width_um := w } :=
  ⟨rfl, rfl⟩

/-! ### Failed project loads (C6, C7, C10) -/

/-- C6 counterexample: loading a document whose only tab has corrupt
(non-base64) embedded image data removes the previously valid tab — image,
calibration and measurements — replaces it by an empty fresh tab, and even
reports success, so a failed load does overwrite previously valid state. -/
theorem load_failure_overwrites_counterexample :
    load_project
        [⟨"Cells A", { freshTab with
            img := some ⟨4, 4, [9], []⟩,
            cell_measurements := [⟨1, 5, 2, 3, [(0,0),(1,0),(1,1)]⟩],
            next_cell_id := 2 }⟩]
        (some ⟨some "1.0", some [⟨some "Bad", some ImgField.invalidB64, some 100,
          some 80, some [], some 1⟩]⟩) =
      ([⟨"Bad", freshTab⟩], true) ∧
    ([⟨"Bad", freshTab⟩] : List AppTab) ≠
      [⟨"Cells A", { freshTab with
          img := some ⟨4, 4, [9], []⟩,
          cell_measurements := [⟨1, 5, 2, 3, [(0,0),(1,0),(1,1)]⟩],
          next_cell_id := 2 }⟩] := by
  refine ⟨rfl, fun hcontra => ?_⟩
  have := congrArg (fun l : List AppTab => (l.headD ⟨"", freshTab⟩).title) hcontra
  simp at this

/-- C6 (amended): a load that fails before the document's top-level shape is
validated — an unreadable or unparsable file, or a parsed document without
the `"tabs"` key — leaves the existing tabs untouched and returns failure.
Once the `"tabs"` key is present, however, all existing tabs are removed
before any snapshot is loaded, so a per-tab failure such as corrupt image
data replaces the previously displayed tabs instead of preserving them. -/
theorem load_malformed_preserves_tabs (tabs : List AppTab) (v : Option String) :
    load_project tabs none = (tabs, false) ∧
    load_project tabs (some ⟨v, none⟩) = (tabs, false) :=
  ⟨rfl, rfl⟩

/-- C7 counterexample: a tab snapshot whose embedded image is valid base64
but cannot be decoded as a raster (`cv2.imdecode` returns `None`) does NOT
abort the tab's load: its stored measurements are restored verbatim into a
tab that has no image, refuting "a corrupt image aborts that tab's load
rather than restoring its measurements". -/
theorem corrupt_image_restores_counterexample :
    (load_state freshTab ⟨some "T", some ImgField.undecodable, some 60, some 40,
        some [⟨7, 2, 3, 4, [(0,0),(1,0),(1,1)]⟩], some 8⟩).cell_measurements =
      [⟨7, 2, 3, 4, [(0,0),(1,0),(1,1)]⟩] ∧
    (load_state freshTab ⟨some "T", some ImgField.undecodable, some 60, some 40,
        some [⟨7, 2, 3, 4, [(0,0),(1,0),(1,1)]⟩], some 8⟩).img = none ∧
    (load_state freshTab ⟨some "T", some ImgField.undecodable, some 60, some 40,
        some [⟨7, 2, 3, 4, [(0,0),(1,0),(1,1)]⟩], some 8⟩).next_cell_id = 8 ∧
    [(⟨7, 2, 3, 4, [(0,0),(1,0),(1,1)]⟩ : Measurement)] ≠ [] :=
  ⟨rfl, rfl, rfl, by simp⟩

/-- C7 (amended): a parsed document without the `"tabs"` key fails without
mutating anything; `"tabs": []` decodes to zero tabs with success; a tab
whose image field raises on base64 decoding aborts that tab's restoration
(no measurement is restored, the tab keeps its prior state), but image
bytes that base64-decode and then fail raster decoding do not abort — the
tab's measurements are restored verbatim and its image is unchanged. -/
theorem decode_error_cases (tabs : List AppTab) (v t : Option String)
    (wq hq : Option ℚ) (cm : Option (List Measurement)) (nid : Option ℤ)
    (s : TabState) (ms : List Measurement) :
    load_project tabs (some ⟨v, none⟩) = (tabs, false) ∧
    load_project tabs (some ⟨v, some []⟩) = ([], true) ∧
    load_state s ⟨t, some ImgField.invalidB64, wq, hq, cm, nid⟩ = s ∧
    (load_state s ⟨t, some ImgField.undecodable, wq, hq, some ms, nid⟩).cell_measurements
      = ms ∧
    (load_state s ⟨t, some ImgField.undecodable, wq, hq, some ms, nid⟩).img = s.img :=
  ⟨rfl, rfl, rfl, rfl, rfl⟩

/-- C10 counterexample: an `image_b64` field that is present and non-empty
but not valid base64 also makes the load fail (`base64.b64decode` raises
`binascii.Error`, a `ValueError`, caught like the missing-field case): the
tab is left exactly as it was and none of the snapshot's measurements or its
counter are restored — refuting "only a missing or empty image_b64 field
causes the load to fail". -/
theorem invalid_base64_fails_counterexample :
    load_state freshTab ⟨some "T", some ImgField.invalidB64, some 60, some 40,
        some [⟨1, 2, 3, 4, [(0,0),(1,0),(1,1)]⟩], some 5⟩ = freshTab ∧
    freshTab.cell_measurements = [] ∧ freshTab.next_cell_id = 1 ∧
    some ImgField.invalidB64 ≠ (none : Option ImgField) ∧
    ImgField.invalidB64 ≠ ImgField.empty :=
  ⟨rfl, rfl, rfl, by simp, by simp⟩

/-- C10 (amended): restoring a snapshot defaults absent optional fields —
`image_width_um` and `image_height_um` to 100.0, `next_cell_id` to 1,
`cell_measurements` to the empty list — and the load fails (tab unchanged)
when `image_b64` is missing, empty, or present but not base64-decodable;
embedded bytes that base64-decode but fail raster decoding do not make the
load fail. -/
theorem load_state_defaults (s : TabState) (i : Image) (t : Option String)
    (wq hq : Option ℚ) (cm : Option (List Measurement)) (nid : Option ℤ) :
    (load_state s ⟨t, some (ImgField.decodable i), none, none, none, none⟩).image_width_um
      = 100 ∧
    (load_state s ⟨t, some (ImgField.decodable i), none, none, none, none⟩).image_height_um
      = 100 ∧
    (load_state s ⟨t, some (ImgField.decodable i), none, none, none, none⟩).next_cell_id
      = 1 ∧
    (load_state s ⟨t, some (ImgField.decodable i), none, none, none, none⟩).cell_measurements
      = [] ∧
    load_state s ⟨t, none, wq, hq, cm, nid⟩ = s ∧
    load_state s ⟨t, some ImgField.empty, wq, hq, cm, nid⟩ = s ∧
    load_state s ⟨t, some ImgField.invalidB64, wq, hq, cm, nid⟩ = s ∧
    (load_state s ⟨t, some ImgField.undecodable, wq, hq, cm, nid⟩).cell_measurements
      = cm.getD [] :=
  ⟨rfl, rfl, rfl, rfl, rfl, rfl, rfl, rfl⟩

/-! ### Image-less tabs and saving (C9) -/

/-- Length of the saved tab list: one snapshot per image-bearing tab. -/
theorem saved_tabs_length (tabs : List AppTab) :
    (tabs.filterMap (fun t => (save_state t.state).map
        (fun st => { st with title := some t.title }))).length =
      (tabs.filter (fun t => t.state.img.isSome)).length := by
  induction tabs with
  | nil => rfl
  | cons t ts ih =>
    rw [List.filterMap_cons, List.filter_cons]
    cases h : t.state.img with
    | none =>
      have hs : save_state t.state = none := by simp only [save_state, h]
      rw [hs]
      simpa [h] using ih
    | some i =>
      have hs : save_state t.state = some
          { title := some "Untitled Tab"
            image_b64 := some (ImgField.decodable i)
            image_width_um := some t.state.image_width_um
            image_height_um := some t.state.image_height_um
            cell_measurements := some t.state.cell_measurements
            next_cell_id := some t.state.next_cell_id } := by
        simp only [save_state, h]
      rw [hs]
      simpa [h] using ih

/-- C9: a tab with no loaded image yields no snapshot (`save_state` returns
`None`) and is silently omitted from the saved document, so the document
carries exactly the image-bearing tabs, and decoding the encoded document
restores exactly that many tabs — image-less tabs are not restored. -/
theorem imageless_tab_omitted :
    (∀ s : TabState, save_state s = none ↔ s.img = none) ∧
    (∀ tabs : List AppTab,
      ((save_project tabs).tabs.getD []).length =
        (tabs.filter (fun t => t.state.img.isSome)).length) ∧
    (∀ tabs tabs0 : List AppTab,
      (load_project tabs0 (some (save_project tabs))).1.length =
        (tabs.filter (fun t => t.state.img.isSome)).length) := by
  refine ⟨fun s => ?_, fun tabs => ?_, fun tabs tabs0 => ?_⟩
  · cases h : s.img <;> simp [save_state, h]
  · simpa [save_project] using saved_tabs_length tabs
  · simpa [save_project, load_project] using saved_tabs_length tabs

/-! ### Line measurement (C8) -/

/-- C8: releasing a drawn line measures the Euclidean pixel distance between
the two endpoints times the single isotropic scale
`sqrt(pixel_width_um * pixel_height_um)`, and neither creates nor modifies
any measurement record: the store's record list and its id counter are left
untouched. -/
theorem measure_line_spec (s : TabState) (p0 endPt : ℚ × ℚ)
    (h : s.line_start_point = some p0) :
    (handle_line_release_state s endPt).cell_measurements = s.cell_measurements ∧
    (handle_line_release_state s endPt).next_cell_id = s.next_cell_id ∧
    handle_line_release_length s endPt =
      some (Real.sqrt (((endPt.1 - p0.1 : ℚ) : ℝ) ^ 2 + ((endPt.2 - p0.2 : ℚ) : ℝ) ^ 2) *
        Real.sqrt ((s.pixel_width_um : ℝ) * (s.pixel_height_um : ℝ))) := by
  refine ⟨?_, ?_, ?_⟩ <;>
    simp [handle_line_release_state, handle_line_release_length, h]

/-- A concrete tab with a pending line start point, for the line-measurement
witness. -/
def lineTab : TabState :=
  { freshTab with
    pixel_width_um := 2
    pixel_height_um := 8
    line_start_point := some (1, 2) }

/-- C8 witness: the line theorem at a concrete tab (scales 2 and 8, line from
(1,2) to (4,6)): the store is untouched and the value is the 3-4-5 distance
times `sqrt (2 * 8)`. -/
theorem measure_line_spec_witness :
    (handle_line_release_state lineTab (4, 6)).cell_measurements =
      lineTab.cell_measurements ∧
    (handle_line_release_state lineTab (4, 6)).next_cell_id = lineTab.next_cell_id ∧
    handle_line_release_length lineTab (4, 6) =
      some (Real.sqrt ((((4 : ℚ) - 1 : ℚ) : ℝ) ^ 2 + (((6 : ℚ) - 2 : ℚ) : ℝ) ^ 2) *
        Real.sqrt (((2 : ℚ) : ℝ) * ((8 : ℚ) : ℝ))) :=
  measure_line_spec lineTab (1, 2) (4, 6) rfl

/-! ### Id assignment across create/delete/recalculate (C4) -/

/-- The id counter after a click: incremented exactly when some contour
contains the point. -/
theorem handle_click_next (s : TabState) (p : Pt) :
    (handle_click s p).next_cell_id =
      if (s.contours.find? (fun c => decide (0 ≤ pointPolygonTest c p))).isSome then
        s.next_cell_id + 1
      else s.next_cell_id := by
  cases hf : s.contours.find? (fun c => decide (0 ≤ pointPolygonTest c p)) <;>
    simp [handle_click, hf]

/-- A delete never touches the id counter. -/
theorem delete_next_id (s : TabState) (sel : Option ℤ) :
    (delete_selected_measurement s sel).next_cell_id = s.next_cell_id := by
  cases sel with
  | none => rfl
  | some cid =>
    simp only [delete_selected_measurement]
    split <;> rfl

/-- A delete never renumbers: every surviving record was already in the
store, unchanged. -/
theorem delete_keeps_records (s : TabState) (sel : Option ℤ) :
    ∀ m ∈ (delete_selected_measurement s sel).cell_measurements,
      m ∈ s.cell_measurements := by
  cases sel with
  | none => exact fun m hm => hm
  | some cid =>
    simp only [delete_selected_measurement]
    split
    · exact fun m hm => List.mem_of_mem_filter hm
    · exact fun m hm => hm

/-- A recalculation never touches the id counter. -/
theorem recalculate_next_id (s : TabState) (wText hText : Option ℚ) :
    (recalculate_dimensions s wText hText).next_cell_id = s.next_cell_id := by
  cases wText with
  | none => rfl
  | some w =>
    cases hText with
    | none => rfl
    | some h =>
      simp only [recalculate_dimensions]
      cases s.img <;> rfl

/-- The counter never decreases across one operation. -/
theorem applyOp_next_mono (s : TabState) (op : StoreOp) :
    s.next_cell_id ≤ (applyOp s op).1.next_cell_id := by
  cases op with
  | click p =>
    simp only [applyOp, handle_click_next]
    split <;> omega
  | deleteSel sel => simp [applyOp, delete_next_id]
  | recal wT hT => simp [applyOp, recalculate_next_id]

/-- Ids assigned by one operation: exactly the counter before it, which the
operation then strictly passes. -/
theorem applyOp_assigned (s : TabState) (op : StoreOp) :
    ∀ a ∈ (applyOp s op).2, a = s.next_cell_id ∧
      s.next_cell_id < (applyOp s op).1.next_cell_id := by
  cases op with
  | click p =>
    simp only [applyOp, handle_click_next]
    cases hf : s.contours.find? (fun c => decide (0 ≤ pointPolygonTest c p)) <;>
      simp [hf]
  | deleteSel sel => simp [applyOp]
  | recal wT hT => simp [applyOp]

/-- One operation assigns at most one id, so its assignment list is sorted. -/
theorem applyOp_assigned_pairwise (s : TabState) (op : StoreOp) :
    List.Pairwise (fun a b => a < b) (applyOp s op).2 := by
  cases op with
  | click p =>
    simp only [applyOp]
    split <;> simp
  | deleteSel sel => simp [applyOp]
  | recal wT hT => simp [applyOp]

/-- Across a run of operations the counter never decreases, every assigned
id lies in the window from the starting counter (inclusive) to the final
counter (exclusive), and the assigned ids are strictly increasing. -/
theorem applyOps_spec (ops : List StoreOp) : ∀ s : TabState,
    s.next_cell_id ≤ (applyOps s ops).1.next_cell_id ∧
    (∀ a ∈ (applyOps s ops).2,
      s.next_cell_id ≤ a ∧ a < (applyOps s ops).1.next_cell_id) ∧
    List.Pairwise (fun a b => a < b) (applyOps s ops).2 := by
  induction ops with
  | nil => intro s; simp [applyOps]
  | cons op ops ih =>
    intro s
    obtain ⟨ih1, ih2, ih3⟩ := ih (applyOp s op).1
    have h1 := applyOp_next_mono s op
    have h2 := applyOp_assigned s op
    refine ⟨le_trans h1 ih1, ?_, ?_⟩
    · intro a ha
      simp only [applyOps, List.mem_append] at ha
      rcases ha with ha | ha
      · obtain ⟨rfl, hlt⟩ := h2 a ha
        exact ⟨le_refl _, lt_of_lt_of_le hlt ih1⟩
      · obtain ⟨hge, hlt⟩ := ih2 a ha
        exact ⟨le_trans h1 hge, hlt⟩
    · simp only [applyOps]
      refine List.pairwise_append.mpr ⟨applyOp_assigned_pairwise s op, ih3, ?_⟩
      intro a ha b hb
      obtain ⟨rfl, hlt⟩ := h2 a ha
      exact lt_of_lt_of_le hlt (ih2 b hb).1

/-- C4: across any sequence of click-create, delete and recalculate
operations on one store (restore excluded), the ids assigned through the
normal add path are strictly increasing — hence no id is ever reused, also
after deletes — the counter `next_cell_id` never decreases and stays
strictly greater than every id assigned during the run, and a delete never
decrements the counter and never renumbers the surviving records. -/
theorem next_id_never_reused (s : TabState) (ops : List StoreOp) (sel : Option ℤ) :
    List.Pairwise (fun a b => a < b) (applyOps s ops).2 ∧
    s.next_cell_id ≤ (applyOps s ops).1.next_cell_id ∧
    (∀ a ∈ (applyOps s ops).2,
      s.next_cell_id ≤ a ∧ a < (applyOps s ops).1.next_cell_id) ∧
    (delete_selected_measurement (applyOps s ops).1 sel).next_cell_id =
      (applyOps s ops).1.next_cell_id ∧
    (∀ m ∈ (delete_selected_measurement (applyOps s ops).1 sel).cell_measurements,
      m ∈ (applyOps s ops).1.cell_measurements) := by
  obtain ⟨h1, h2, h3⟩ := applyOps_spec ops s
  exact ⟨h3, h1, h2, delete_next_id _ sel, delete_keeps_records _ sel⟩

/-! ### Click-to-measure (C2) -/

/-- `find?` returns the element at the least index satisfying the
predicate. -/
theorem find?_of_first {α : Type} (p : α → Bool) :
    ∀ (l : List α) (i : ℕ) (h : i < l.length),
      (∀ j (hj : j < i), p (l.get ⟨j, Nat.lt_trans hj h⟩) = false) →
      p (l.get ⟨i, h⟩) = true → l.find? p = some (l.get ⟨i, h⟩) := by
  intro l
  induction l with
  | nil => intro i h; exact absurd h (Nat.not_lt_zero i)
  | cons a t ih =>
    intro i h hprev hp
    cases i with
    | zero =>
      exact List.find?_cons_of_pos t hp
    | succ n =>
      have ha : p a = false := hprev 0 (Nat.succ_pos n)
      rw [List.find?_cons_of_neg t (by simp [ha])]
      exact ih n (Nat.lt_of_succ_lt_succ h)
        (fun j hj => hprev (j + 1) (Nat.succ_lt_succ hj)) hp

/-- C2: when contour `i` is the first detected contour containing the click
point (point-polygon test `≥ 0`, i.e. inside or on the boundary — contours
before it all test negative), the click appends exactly one record built
from that contour: the pixel area times both unit-per-pixel scales, the
bounding-box width and height times the x and y scales respectively, id
equal to `next_cell_id`; the counter is incremented by one.  Contours after
index `i` are never considered, so a point in several overlapping regions
binds only to the first match. -/
theorem handle_click_first_match (s : TabState) (p : Pt) (i : ℕ)
    (h : i < s.contours.length)
    (hfirst : ∀ j (hj : j < i),
      pointPolygonTest (s.contours.get ⟨j, Nat.lt_trans hj h⟩) p < 0)
    (hit : 0 ≤ pointPolygonTest (s.contours.get ⟨i, h⟩) p) :
    handle_click s p = { s with
      cell_measurements := s.cell_measurements ++
        [{ id := s.next_cell_id
           area_um2 := contourArea (s.contours.get ⟨i, h⟩) *
             s.pixel_width_um * s.pixel_height_um
           width_um := (((boundingRectWH (s.contours.get ⟨i, h⟩)).1 : ℤ) : ℚ) *
             s.pixel_width_um
           height_um := (((boundingRectWH (s.contours.get ⟨i, h⟩)).2 : ℤ) : ℚ) *
             s.pixel_height_um
           contour_data := s.contours.get ⟨i, h⟩ }]
      next_cell_id := s.next_cell_id + 1 } := by
  have hfind : s.contours.find? (fun c => decide (0 ≤ pointPolygonTest c p)) =
      some (s.contours.get ⟨i, h⟩) := by
    refine find?_of_first _ s.contours i h (fun j hj => ?_) (by simpa using hit)
    simpa using not_le.mpr (hfirst j hj)
  simp only [handle_click, hfind]

/-- A concrete tab with two nested (overlapping) detected contours, for the
click witness. -/
def clickTab : TabState :=
  { freshTab with
    contours := [[(0,0),(10,0),(10,10),(0,10)], [(2,2),(8,2),(8,8),(2,8)]]
    pixel_width_um := 1
    pixel_height_um := 2
    next_cell_id := 4 }

/-- C2 witness: the point (5,5) lies inside both nested contours; the click
binds to the first one (the outer 10×10 square: pixel area 100, bounding box
11×11) and with scales 1 and 2 appends the record
`id 4, area 200, width 11, height 22`, bumping the counter to 5. -/
theorem handle_click_first_match_witness :
    (0 ≤ pointPolygonTest [(0,0),(10,0),(10,10),(0,10)] (5, 5)) ∧
    (0 ≤ pointPolygonTest [(2,2),(8,2),(8,8),(2,8)] (5, 5)) ∧
    handle_click clickTab (5, 5) = { clickTab with
      cell_measurements := [{
        id := 4
        area_um2 := 200
        width_um := 11
        height_um := 22
        contour_data := [(0,0),(10,0),(10,10),(0,10)] }]
      next_cell_id := 5 } := by
  refine ⟨by decide, by decide, ?_⟩
  have harea : contourArea [(0,0),(10,0),(10,10),(0,10)] = 100 := by
    have hs : shoelace [(0,0),(10,0),(10,10),(0,10)] = 200 := by decide
    rw [contourArea, hs]
    norm_num
  have hbb : boundingRectWH [(0,0),(10,0),(10,10),(0,10)] = (11, 11) := by decide
  have h := handle_click_first_match clickTab (5, 5) 0 (by decide)
    (fun j hj => absurd hj (Nat.not_lt_zero j)) (by decide)
  rw [h]
  simp only [show clickTab.contours.get ⟨0, by decide⟩ =
      [(0,0),(10,0),(10,10),(0,10)] from rfl, harea, hbb]
  simp [clickTab, freshTab]
  norm_num

/-! ### Recalculation (C3) -/

/-- Unfolding of a successful recalculation (both fields numeric, image
loaded): physical dimensions replaced, pixel scales rederived from the
image's pixel dimensions, and every record recomputed in place. -/
theorem recalculate_unfold (s : TabState) (w h : ℚ) (i : Image)
    (him : s.img = some i) :
    recalculate_dimensions s (some w) (some h) =
      { s with
        image_width_um := w
        image_height_um := h
        pixel_width_um := w / (i.width : ℚ)
        pixel_height_um := h / (i.height : ℚ)
        cell_measurements := s.cell_measurements.map
          (recomputeMeasurement (w / (i.width : ℚ)) (h / (i.height : ℚ))) } := by
  obtain ⟨wum, hum, pw0, ph0, cs, ms, nid, img0, lsp, cli⟩ := s
  simp only at him
  subst him
  rfl

/-- C3: with both calibration fields parsed and an image loaded,
recalculation maps every record to its recomputation from its stored polygon
and the new calibration — preserving each record's id, polygon and the
record order (it is a `List.map`) — and it is idempotent: recalculating
again with the same parsed calibration returns the very same state. -/
theorem recalculate_spec (s : TabState) (w h : ℚ) (i : Image)
    (him : s.img = some i) :
    (recalculate_dimensions s (some w) (some h)).cell_measurements =
      s.cell_measurements.map
        (recomputeMeasurement (w / (i.width : ℚ)) (h / (i.height : ℚ))) ∧
    (∀ m : Measurement,
      (recomputeMeasurement (w / (i.width : ℚ)) (h / (i.height : ℚ)) m).id = m.id ∧
      (recomputeMeasurement (w / (i.width : ℚ)) (h / (i.height : ℚ)) m).contour_data =
        m.contour_data) ∧
    recalculate_dimensions (recalculate_dimensions s (some w) (some h))
        (some w) (some h) =
      recalculate_dimensions s (some w) (some h) := by
  have h1 := recalculate_unfold s w h i him
  refine ⟨by rw [h1], fun m => ⟨rfl, rfl⟩, ?_⟩
  have h2 := recalculate_unfold
    { s with
      image_width_um := w
      image_height_um := h
      pixel_width_um := w / (i.width : ℚ)
      pixel_height_um := h / (i.height : ℚ)
      cell_measurements := s.cell_measurements.map
        (recomputeMeasurement (w / (i.width : ℚ)) (h / (i.height : ℚ))) }
    w h i him
  rw [h1, h2]
  have hmm : ∀ l : List Measurement,
      (l.map (recomputeMeasurement (w / (i.width : ℚ)) (h / (i.height : ℚ)))).map
          (recomputeMeasurement (w / (i.width : ℚ)) (h / (i.height : ℚ))) =
        l.map (recomputeMeasurement (w / (i.width : ℚ)) (h / (i.height : ℚ))) := by
    intro l
    induction l with
    | nil => rfl
    | cons a t iht =>
      simp only [List.map_cons, iht]
      rfl
  dsimp only
  rw [hmm]

/-- A concrete tab for the recalculation witness: a 10×5-pixel image and one
record whose polygon is a 4×2 axis-aligned rectangle. -/
def recalTab : TabState :=
  { freshTab with
    img := some ⟨10, 5, [], []⟩
    image_width_um := 40
    image_height_um := 20
    pixel_width_um := 4
    pixel_height_um := 4
    cell_measurements := [⟨1, 128, 20, 12, [(2,2),(6,2),(6,4),(2,4)]⟩]
    next_cell_id := 2 }

/-- C3 witness: recalibrating the 10×5-pixel tab to 100µm×50µm gives pixel
scales 10 and 10; the single record (pixel area 8, bounding box 5×3) becomes
area 800, width 50, height 30 with id and polygon unchanged, and a second
recalculation with the same values changes nothing. -/
theorem recalculate_spec_witness :
    (recalculate_dimensions recalTab (some 100) (some 50)).cell_measurements =
      recalTab.cell_measurements.map
        (recomputeMeasurement ((100 : ℚ) / ((10 : ℕ) : ℚ))
          ((50 : ℚ) / ((5 : ℕ) : ℚ))) ∧
    recalculate_dimensions (recalculate_dimensions recalTab (some 100) (some 50))
        (some 100) (some 50) =
      recalculate_dimensions recalTab (some 100) (some 50) ∧
    (recalculate_dimensions recalTab (some 100) (some 50)).cell_measurements =
      [⟨1, 800, 50, 30, [(2,2),(6,2),(6,4),(2,4)]⟩] := by
  have h := recalculate_spec recalTab 100 50 ⟨10, 5, [], []⟩ rfl
  refine ⟨h.1, h.2.2, ?_⟩
  rw [h.1]
  have hs : shoelace [(2,2),(6,2),(6,4),(2,4)] = 16 := by decide
  have harea : contourArea [(2,2),(6,2),(6,4),(2,4)] = 8 := by
    rw [contourArea, hs]
    norm_num
  have hbb : boundingRectWH [(2,2),(6,2),(6,4),(2,4)] = (5, 3) := by decide
  simp [recalTab, recomputeMeasurement, harea, hbb]
  norm_num

/-! ### Save/load round trip (C1) -/

/-- Restoring the encoded snapshots of a list of image-bearing tabs
reproduces, tab by tab, the title, the image, the physical dimensions, the
measurement records and the id counter. -/
theorem round_trip_aux (tabs : List AppTab)
    (h : ∀ t ∈ tabs, t.state.img.isSome = true) :
    List.Forall₂ (fun t r =>
      r.title = t.title ∧
      r.state.img = t.state.img ∧
      r.state.image_width_um = t.state.image_width_um ∧
      r.state.image_height_um = t.state.image_height_um ∧
      r.state.cell_measurements = t.state.cell_measurements ∧
      r.state.next_cell_id = t.state.next_cell_id)
      tabs
      ((tabs.filterMap (fun t => (save_state t.state).map
          (fun st => { st with title := some t.title }))).map
        (fun st => ({ title := st.title.getD "Loaded Tab",
                      state := load_state freshTab st } : AppTab))) := by
  induction tabs with
  | nil => simp
  | cons t ts ih =>
    have hts : ∀ u ∈ ts, u.state.img.isSome = true :=
      fun u hu => h u (List.mem_cons_of_mem t hu)
    obtain ⟨i, hi⟩ := Option.isSome_iff_exists.mp (h t (List.mem_cons_self t ts))
    have hs : save_state t.state = some
        { title := some "Untitled Tab"
          image_b64 := some (ImgField.decodable i)
          image_width_um := some t.state.image_width_um
          image_height_um := some t.state.image_height_um
          cell_measurements := some t.state.cell_measurements
          next_cell_id := some t.state.next_cell_id } := by
      simp only [save_state, hi]
    rw [List.filterMap_cons, hs]
    refine List.Forall₂.cons ⟨rfl, by rw [hi]; exact rfl, rfl, rfl, rfl, rfl⟩ (ih hts)

/-- C1: for every tab set in which each tab has a loaded image, decoding the
encoded project document reproduces, tab by tab and in order, the same
title, the identical image (pixel-identical raster through the lossless
PNG + base64 round trip), the identical physical width and height in
micrometers, the identical measurement records — ids, polygons and derived
values restored verbatim, hence equal — and the restored `next_cell_id`
equal to the saved one. -/
theorem save_load_round_trip (tabs tabs0 : List AppTab)
    (h : ∀ t ∈ tabs, t.state.img.isSome = true) :
    List.Forall₂ (fun t r =>
      r.title = t.title ∧
      r.state.img = t.state.img ∧
      r.state.image_width_um = t.state.image_width_um ∧
      r.state.image_height_um = t.state.image_height_um ∧
      r.state.cell_measurements = t.state.cell_measurements ∧
      r.state.next_cell_id = t.state.next_cell_id)
      tabs (load_project tabs0 (some (save_project tabs))).1 := by
  simpa [load_project, save_project] using round_trip_aux tabs h

/-- A concrete image-bearing tab with one measurement, for the round-trip
witness. -/
def rtTab : AppTab :=
  ⟨"Tab 1", { freshTab with
    img := some ⟨8, 4, [1, 2, 3], [[(1,1),(3,1),(3,3)]]⟩
    image_width_um := 60
    image_height_um := 40
    pixel_width_um := 6
    pixel_height_um := 10
    cell_measurements := [⟨3, 12, 6, 4, [(1,1),(3,1),(3,3)]⟩]
    next_cell_id := 4 }⟩

/-- C1 witness: saving the one-tab project holding `rtTab` and loading the
resulting document back (into an empty tab list) restores its title, image,
physical dimensions, measurement record and counter. -/
theorem save_load_round_trip_witness :
    List.Forall₂ (fun t r =>
      r.title = t.title ∧
      r.state.img = t.state.img ∧
      r.state.image_width_um = t.state.image_width_um ∧
      r.state.image_height_um = t.state.image_height_um ∧
      r.state.cell_measurements = t.state.cell_measurements ∧
      r.state.next_cell_id = t.state.next_cell_id)
      [rtTab] (load_project [] (some (save_project [rtTab]))).1 :=
  save_load_round_trip [rtTab] [] (by
    intro t ht
    rw [List.mem_singleton] at ht
    subst ht
    rfl)

end CellAnalyzer
